import Mathlib

/-!
# Verification of the XAIN federated-learning coordinator

Shallow embedding of the coordinator core of the `xain` repository:

* `xain_fl/grpc/coordinator.py` — the `Coordinator` state machine, its
  in-file `Round` class, the `Participants` registry and the gRPC surface
  (`CoordinatorGrpc`).
* `xain_fl/fl/coordinator/controller.py` — `Controller.get_num_ids_to_select`
  and `RandomController.select_ids`.
* `xain_fl/coordinator/round.py` — the standalone `Round` class
  (embedded here as `RoundPy` to avoid a name clash with the grpc `Round`).

Modelling conventions:

* Python `float` configuration values (`fraction_of_participants`) are
  modelled as exact rationals (`ℚ`); all concrete inputs used below are
  dyadic or otherwise exactly representable, where Python float arithmetic
  agrees with exact rational arithmetic.
* Python `dict`s are modelled as association lists in key-insertion order
  (Python 3.7+ dicts preserve insertion order; overwriting a present key
  keeps its position).  The participant registry only matters through key
  membership, size and order, so it is a `List String`; the per-participant
  heartbeat deadlines are elided because no statement below mentions time.
* The aggregator (`FederatedAveragingAgg`, whose source file is not part of
  the sources considered here) is abstracted as a parameter
  `agg : List U → T`; no statement below depends on its value.
* The randomness of `np.random.choice(ids, size=k, replace=False)` is
  modelled by a selection oracle `pick : List String → ℕ → List String`
  together with the predicate `ValidPick` stating numpy's documented
  contract: for `k ≤ ids.length` the result has length `k` and is a
  without-replacement sample (a sub-permutation) of `ids`.
* Fallible handlers return `Except CError`; the Python handlers raise their
  exceptions before any mutation, so an error result leaves the coordinator
  state unchanged by construction, mirroring the source.
-/

/-- The three coordinator states of `coordinator_pb2.State` used by the code. -/
inductive CState
  | STANDBY
  | ROUND
  | FINISHED
deriving DecidableEq

/-- `coordinator_pb2.RendezvousResponse`. -/
inductive RendezvousResponse
  | ACCEPT
  | LATER
deriving DecidableEq

/-- The exception kinds raised by `xain_fl/grpc/coordinator.py`:
`UnknownParticipantError`, `InvalidRequestError`, `DuplicatedUpdateError`. -/
inductive CError
  | UnknownParticipant
  | InvalidRequest
  | DuplicatedUpdate
deriving DecidableEq

/-- The four request message kinds dispatched by `Coordinator.on_message`.
`U` is the (opaque) payload of an `EndTrainingRequest`. -/
inductive Msg (U : Type)
  | rendezvousReq
  | heartbeatReq
  | startTrainingReq
  | endTrainingReq (u : U)

/-- Reply messages.  `T` is the (opaque) type of the global weights `theta`. -/
inductive Reply (T U : Type)
  | rendezvous (response : RendezvousResponse)
  | heartbeat (state : CState) (round : ℕ)
  | startTraining (theta : T) (epochs : ℕ) (epoch_base : ℕ)
  | endTraining
deriving DecidableEq

/-- Python-dict insertion: `self.participants[participant_id] = ...` creates
the key at the end if absent, otherwise overwrites in place (key order and
size unchanged).  Only keys are modelled (`Participants.add`). -/
def dictAdd (ps : List String) (i : String) : List String :=
  if i ∈ ps then ps else ps ++ [i]

/-- The `Round` class defined inside `xain_fl/grpc/coordinator.py`
(the one actually used by the `Coordinator`).  `updates` is the dict of
submitted updates in submission (insertion) order. -/
structure Round (U : Type) where
  participant_ids : List String
  updates : List (String × U)
deriving DecidableEq

namespace Round

/-- `self.updates.keys()`. -/
def keys (r : Round U) : List String :=
  r.updates.map Prod.fst

/-- `Round.add_updates`: raises `DuplicatedUpdateError` if the participant
already submitted this round, otherwise records the update. -/
def add_updates (r : Round U) (i : String) (u : U) : Except CError (Round U) :=
  if i ∈ r.keys then .error .DuplicatedUpdate
  else .ok ⟨r.participant_ids, r.updates ++ [(i, u)]⟩

/-- `Round.is_finished`: `len(self.updates) == len(self.participant_ids)`. -/
def is_finished (r : Round U) : Bool :=
  r.updates.length == r.participant_ids.length

/-- `Round.get_theta_updates`: iterates `self.updates.items()`, i.e. the
updates in submission order. -/
def get_theta_updates (r : Round U) : List U :=
  r.updates.map Prod.snd

end Round

/-- `Controller.get_num_ids_to_select` from
`xain_fl/fl/coordinator/controller.py`:
`int(min(len(ids), max(1, np.ceil(len(ids) * fraction))))`. -/
def get_num_ids_to_select (n : ℕ) (f : ℚ) : ℤ :=
  min (n : ℤ) (max 1 ⌈(n : ℚ) * f⌉)

/-- The type of the selection oracle standing for `np.random.choice`. -/
abbrev Pick := List String → ℕ → List String

/-- numpy's contract for `np.random.choice(ids, size=k, replace=False)`:
for `k ≤ ids.length` the sample has size `k` and is drawn without
replacement from `ids` (some permutation of a sublist). -/
def ValidPick (pick : Pick) : Prop :=
  ∀ ids k, k ≤ ids.length → (pick ids k).length = k ∧ (pick ids k).Subperm ids

/-- One possible behaviour of `np.random.choice(..., replace=False)`:
return the first `k` candidates in order. -/
def takeFirst : Pick := fun ids k => ids.take k

/-- `RandomController.select_ids`: sample `get_num_ids_to_select` many ids
without replacement from `participant_ids`. -/
def select_ids (pick : Pick) (ids : List String) (f : ℚ) : List String :=
  pick ids (get_num_ids_to_select ids.length f).toNat

/-- The `Coordinator` instance state (`xain_fl/grpc/coordinator.py`),
restricted to the fields the claims mention.  `T` is the type of `theta`,
`U` the type of a stored update. -/
structure Coord (T U : Type) where
  minimum_participants_in_round : ℕ
  fraction_of_participants : ℚ
  num_rounds : ℕ
  participants : List String
  theta : T
  epochs : ℕ
  epoch_base : ℕ
  round : Round U
  state : CState
  current_round : ℕ
deriving DecidableEq

namespace Coord

/-- `Coordinator.get_minimum_connected_participants`:
`self.minimum_participants_in_round // self.fraction_of_participants` —
Python floor division of an int by a float, an integer-valued float,
modelled as the exact integer floor. -/
def get_minimum_connected_participants (m : ℕ) (f : ℚ) : ℤ :=
  ⌊(m : ℚ) / f⌋

/-- `self.minimum_connected_participants`, computed once in `__init__` from
the two immutable configuration fields. -/
def min_connected (c : Coord T U) : ℤ :=
  get_minimum_connected_participants c.minimum_participants_in_round
    c.fraction_of_participants

/-- `Coordinator.__init__`: empty registry, `Round([])`, STANDBY, round 0. -/
def init (num_rounds m : ℕ) (f : ℚ) (theta : T) (epochs epoch_base : ℕ) :
    Coord T U :=
  { minimum_participants_in_round := m
    fraction_of_participants := f
    num_rounds := num_rounds
    participants := []
    theta := theta
    epochs := epochs
    epoch_base := epoch_base
    round := ⟨[], []⟩
    state := .STANDBY
    current_round := 0 }

/-- `Coordinator.select_participant_ids_and_init_round`: build a fresh
`RandomController` over the registry snapshot, select, replace the round. -/
def select_participant_ids_and_init_round (pick : Pick) (c : Coord T U) :
    Coord T U :=
  { c with round := ⟨select_ids pick c.participants c.fraction_of_participants, []⟩ }

/-- `Coordinator._handle_rendezvous`.  Note that the handler never checks
whether the caller is already registered: it only compares the registry
size against `minimum_connected_participants`. -/
def handle_rendezvous (pick : Pick) (c : Coord T U) (i : String) :
    RendezvousResponse × Coord T U :=
  if (c.participants.length : ℤ) < c.min_connected then
    if ((dictAdd c.participants i).length : ℤ) = c.min_connected then
      (.ACCEPT,
        { select_participant_ids_and_init_round pick
            { c with participants := dictAdd c.participants i } with
            state := .ROUND
            current_round := if c.current_round = 0 then 1 else c.current_round })
    else (.ACCEPT, { c with participants := dictAdd c.participants i })
  else (.LATER, c)

/-- `Coordinator._handle_heartbeat`: refresh the deadline (elided), reply
ROUND if the caller is among the selected ids, STANDBY otherwise; the
global state is never altered and never advertised as FINISHED. -/
def handle_heartbeat (c : Coord T U) (i : String) : Reply T U × Coord T U :=
  (.heartbeat (if i ∈ c.round.participant_ids then .ROUND else .STANDBY)
    c.current_round, c)

/-- `Coordinator._handle_start_training`: `InvalidRequestError` unless the
coordinator is in a round and the caller was selected for it. -/
def handle_start_training (c : Coord T U) (i : String) :
    Except CError (Reply T U × Coord T U) :=
  if c.state ≠ .ROUND ∨ i ∉ c.round.participant_ids then .error .InvalidRequest
  else .ok (.startTraining c.theta c.epochs c.epoch_base, c)

/-- `Coordinator._handle_end_training`: record the update (may raise
`DuplicatedUpdateError`); if the round is then finished, aggregate and
either finish the session or advance to the next round.  There is no check
that the caller is in `round.participant_ids`. -/
def handle_end_training (agg : List U → T) (pick : Pick) (c : Coord T U)
    (i : String) (u : U) : Except CError (Reply T U × Coord T U) :=
  match c.round.add_updates i u with
  | .error e => .error e
  | .ok r1 =>
    if r1.is_finished then
      if c.current_round = c.num_rounds then
        .ok (.endTraining,
          { c with round := r1, theta := agg r1.get_theta_updates,
                   state := .FINISHED })
      else
        .ok (.endTraining,
          select_participant_ids_and_init_round pick
            { c with round := r1, theta := agg r1.get_theta_updates,
                     current_round := c.current_round + 1 })
    else .ok (.endTraining, { c with round := r1 })

/-- `Coordinator.on_message`: any non-rendezvous request from an id outside
the registry raises `UnknownParticipantError`; otherwise dispatch. -/
def on_message (agg : List U → T) (pick : Pick) (c : Coord T U) (m : Msg U)
    (i : String) : Except CError (Reply T U × Coord T U) :=
  match m with
  | .rendezvousReq =>
    let p := handle_rendezvous pick c i
    .ok (.rendezvous p.1, p.2)
  | .heartbeatReq =>
    if i ∈ c.participants then .ok (handle_heartbeat c i)
    else .error .UnknownParticipant
  | .startTrainingReq =>
    if i ∈ c.participants then handle_start_training c i
    else .error .UnknownParticipant
  | .endTrainingReq u =>
    if i ∈ c.participants then handle_end_training agg pick c i u
    else .error .UnknownParticipant

/-- `Coordinator.remove_participant`: remove from the registry, then fall
back to STANDBY whenever the remaining size is below the threshold — the
current state is not consulted. -/
def remove_participant (c : Coord T U) (i : String) : Coord T U :=
  if ((c.participants.erase i).length : ℤ) < c.min_connected then
    { c with participants := c.participants.erase i, state := .STANDBY }
  else { c with participants := c.participants.erase i }

end Coord

/-- gRPC status codes set by `CoordinatorGrpc` (`grpc.StatusCode`). -/
inductive StatusCode
  | OK
  | PERMISSION_DENIED
  | FAILED_PRECONDITION
  | ALREADY_EXISTS
deriving DecidableEq

/-- Outcome of a gRPC servicer method.  `reply` is a normal return;
`status s c` is the caught-exception path (`context.set_code(s)` plus an
empty reply, coordinator left in state `c`); `raisedAttributeError` models
the `StartTraining` handler's `context.set_Code(...)` line — `set_Code` is
not a method of `grpc.ServicerContext` (the real one is `set_code`), so
Python raises `AttributeError` there and no status code is ever set;
`propagated` is an exception with no matching `except` clause. -/
inductive RpcResult (T U : Type)
  | reply (r : Reply T U) (c : Coord T U)
  | status (s : StatusCode) (c : Coord T U)
  | raisedAttributeError (c : Coord T U)
  | propagated (e : CError) (c : Coord T U)
deriving DecidableEq

/-- `CoordinatorGrpc.StartTraining`: forwards to `on_message`; catches
`UnknownParticipantError` → PERMISSION_DENIED; the `InvalidRequestError`
branch executes `context.set_Code(grpc.StatusCode.FAILED_PRECONDITION)`,
which raises `AttributeError` (typo for `set_code`), so the intended
FAILED_PRECONDITION never reaches the caller. -/
def grpcStartTraining (agg : List U → T) (pick : Pick) (c : Coord T U)
    (i : String) : RpcResult T U :=
  match Coord.on_message agg pick c .startTrainingReq i with
  | .ok (r, c1) => .reply r c1
  | .error .UnknownParticipant => .status .PERMISSION_DENIED c
  | .error .InvalidRequest => .raisedAttributeError c
  | .error e => .propagated e c

/-- `CoordinatorGrpc.EndTraining`: forwards to `on_message`; catches
`DuplicatedUpdateError` → ALREADY_EXISTS and `UnknownParticipantError` →
PERMISSION_DENIED.  On either error the coordinator state is the pre-call
state: the Python handlers raise before mutating anything. -/
def grpcEndTraining (agg : List U → T) (pick : Pick) (c : Coord T U)
    (i : String) (u : U) : RpcResult T U :=
  match Coord.on_message agg pick c (.endTrainingReq u) i with
  | .ok (r, c1) => .reply r c1
  | .error .DuplicatedUpdate => .status .ALREADY_EXISTS c
  | .error .UnknownParticipant => .status .PERMISSION_DENIED c
  | .error e => .propagated e c

/-- First-match association-list lookup: `updates[i]` on a Python dict. -/
def lookupKey (i : String) : List (String × V) → Option V
  | [] => none
  | (k, v) :: t => if k = i then some v else lookupKey i t

/-- The standalone `Round` class of `xain_fl/coordinator/round.py`
(not the one used by the grpc `Coordinator`).  A stored update is a pair
`(model_weights : W, aggregation_data : N)`. -/
structure RoundPy (W N : Type) where
  participant_ids : List String
  updates : List (String × (W × N))
deriving DecidableEq

namespace RoundPy

/-- `self.updates.keys()`. -/
def keys (r : RoundPy W N) : List String :=
  r.updates.map Prod.fst

/-- `Round.add_selected`: extend the selected ids (no deduplication). -/
def add_selected (r : RoundPy W N) (more_ids : List String) : RoundPy W N :=
  { r with participant_ids := r.participant_ids ++ more_ids }

/-- `Round.remove_selected`: `list.remove` wrapped in `try/except ValueError`
— drop the first occurrence, silently a no-op when absent. -/
def remove_selected (r : RoundPy W N) (i : String) : RoundPy W N :=
  { r with participant_ids := r.participant_ids.erase i }

/-- `Round.add_updates` of `round.py`: same duplicate check as the grpc
version. -/
def add_updates (r : RoundPy W N) (i : String) (w : W) (n : N) :
    Except CError (RoundPy W N) :=
  if i ∈ r.keys then .error .DuplicatedUpdate
  else .ok ⟨r.participant_ids, r.updates ++ [(i, (w, n))]⟩

/-- `Round.is_finished` of `round.py`:
`all(id in self.updates for id in self.participant_ids)`. -/
def is_finished (r : RoundPy W N) : Bool :=
  r.participant_ids.all (fun i => i ∈ r.keys)

/-- `Round.get_weight_updates`: `[self.updates[id] for id in
self.participant_ids]` — a missing key raises `KeyError` (the `.error`
case); then split into the two parallel lists. -/
def get_weight_updates (r : RoundPy W N) : Except Unit (List W × List N) :=
  match r.participant_ids.mapM (fun i => lookupKey i r.updates) with
  | none => .error ()
  | some upds => .ok (upds.map Prod.fst, upds.map Prod.snd)

end RoundPy

/-- Modelled from the spec (§4.3 `snapshot`, §5 ordering guarantee): the
updates of a round read back in `participants_selected` insertion order.
This is the ordering the spec asserts the aggregator receives; it is
compared below against what `Round.get_theta_updates` actually produces. -/
def snapshotBySelected (r : Round U) : List U :=
  r.participant_ids.filterMap (fun i => lookupKey i r.updates)

/-- One atomic transition of the coordinator: either some participant's
request is processed successfully by `on_message` (with an arbitrary
selection-oracle behaviour allowed by numpy's contract), or the heartbeat
monitor evicts a participant via `remove_participant`.  Requests that raise
leave the state unchanged (the handlers raise before mutating), so they
need no transition. -/
inductive CStep (agg : List U → T) : Coord T U → Coord T U → Prop
  | msg (m : Msg U) (i : String) (pick : Pick) (hp : ValidPick pick)
      (r : Reply T U) {c c' : Coord T U}
      (h : Coord.on_message agg pick c m i = .ok (r, c')) : CStep agg c c'
  | remove {c : Coord T U} (i : String) : CStep agg c (Coord.remove_participant c i)

/-- Reachability of a coordinator state from a given start state. -/
def Reachable (agg : List U → T) (c0 c : Coord T U) : Prop :=
  Relation.ReflTransGen (CStep agg) c0 c

/-- A concrete aggregator instance used in the concrete runs below: it
returns the handed-over list itself, which makes the order in which updates
reach the aggregator directly observable in `theta`. -/
def aggL : List ℕ → List ℕ := fun l => l

/-! ### Concrete runs

Trace A: configuration `num_rounds = 1`, `minimum_participants_in_round = 1`,
`fraction_of_participants = 1/2`, so `minimum_connected_participants = 2`.
Participants `p1`, `p2` rendezvous; the selector picks `["p1"]`; then `p2` —
registered but **not selected** — submits an update. -/

def cA0 : Coord (List ℕ) ℕ := Coord.init 1 1 (1/2) [] 0 0

def cA1 : Coord (List ℕ) ℕ :=
  ⟨1, 1/2, 1, ["p1"], [], 0, 0, ⟨[], []⟩, .STANDBY, 0⟩

def cA2 : Coord (List ℕ) ℕ :=
  ⟨1, 1/2, 1, ["p1", "p2"], [], 0, 0, ⟨["p1"], []⟩, .ROUND, 1⟩

def cA3 : Coord (List ℕ) ℕ :=
  ⟨1, 1/2, 1, ["p1", "p2"], [7], 0, 0, ⟨["p1"], [("p2", 7)]⟩, .FINISHED, 1⟩

def cA4 : Coord (List ℕ) ℕ :=
  ⟨1, 1/2, 1, ["p1", "p2"], [7], 0, 0, ⟨["p1"], [("p2", 7), ("p1", 9)]⟩, .FINISHED, 1⟩

/-- Trace B: `num_rounds = 1`, `minimum_participants_in_round = 1`,
`fraction = 1`, so `minimum_connected_participants = 1`.  `p1` rendezvouses
(→ ROUND), finishes the single round (→ FINISHED). -/
def cB0 : Coord (List ℕ) ℕ := Coord.init 1 1 1 [] 0 0

def cB1 : Coord (List ℕ) ℕ :=
  ⟨1, 1, 1, ["p1"], [], 0, 0, ⟨["p1"], []⟩, .ROUND, 1⟩

def cB2 : Coord (List ℕ) ℕ :=
  ⟨1, 1, 1, ["p1"], [5], 0, 0, ⟨["p1"], [("p1", 5)]⟩, .FINISHED, 1⟩

/-- Trace C: `num_rounds = 1`, `minimum_participants_in_round = 2`,
`fraction = 1`, so both `p1` and `p2` are selected; `p2` submits first,
then `p1`, and the finished round is aggregated. -/
def cC0 : Coord (List ℕ) ℕ := Coord.init 1 2 1 [] 0 0

def cC1 : Coord (List ℕ) ℕ :=
  ⟨2, 1, 1, ["p1"], [], 0, 0, ⟨[], []⟩, .STANDBY, 0⟩

def cC2 : Coord (List ℕ) ℕ :=
  ⟨2, 1, 1, ["p1", "p2"], [], 0, 0, ⟨["p1", "p2"], []⟩, .ROUND, 1⟩

def cC3 : Coord (List ℕ) ℕ :=
  ⟨2, 1, 1, ["p1", "p2"], [], 0, 0, ⟨["p1", "p2"], [("p2", 7)]⟩, .ROUND, 1⟩

def cC4 : Coord (List ℕ) ℕ :=
  ⟨2, 1, 1, ["p1", "p2"], [7, 9], 0, 0,
    ⟨["p1", "p2"], [("p2", 7), ("p1", 9)]⟩, .FINISHED, 1⟩

/-- A coordinator state with a registered participant `p3` that is not
among the two selected ids of the in-flight round (used as a witness
input). -/
def cW : Coord (List ℕ) ℕ :=
  ⟨1, 1/2, 5, ["p1", "p2", "p3"], [], 0, 0, ⟨["p1", "p2"], []⟩, .ROUND, 1⟩

/-- A STANDBY state with `p1` registered (a `StartTraining` here must fail
with `InvalidRequestError`). -/
def cS : Coord (List ℕ) ℕ :=
  ⟨1, 1, 1, ["p1"], [3], 5, 2, ⟨[], []⟩, .STANDBY, 0⟩

/-- A ROUND state with `p1` registered and selected. -/
def cR : Coord (List ℕ) ℕ :=
  ⟨1, 1, 1, ["p1"], [3], 5, 2, ⟨["p1"], []⟩, .ROUND, 1⟩

/-! ## Helper lemmas -/

theorem validPick_takeFirst : ValidPick takeFirst := by
  intro ids k hk
  constructor
  · simp [takeFirst, List.length_take, Nat.min_eq_left hk]
  · exact (List.take_sublist k ids).subperm

theorem step_A0_A1 :
    Coord.on_message aggL takeFirst cA0 .rendezvousReq "p1" =
      .ok (.rendezvous .ACCEPT, cA1) := by
  norm_num [cA0, cA1, Coord.init, Coord.on_message, Coord.handle_rendezvous,
    Coord.min_connected, Coord.get_minimum_connected_participants,
    Coord.select_participant_ids_and_init_round, select_ids,
    get_num_ids_to_select, dictAdd, takeFirst]

theorem step_A1_A2 :
    Coord.on_message aggL takeFirst cA1 .rendezvousReq "p2" =
      .ok (.rendezvous .ACCEPT, cA2) := by
  have h : ("p2" : String) ≠ "p1" := by simp
  norm_num [h, cA1, cA2, Coord.on_message, Coord.handle_rendezvous,
    Coord.min_connected, Coord.get_minimum_connected_participants,
    Coord.select_participant_ids_and_init_round, select_ids,
    get_num_ids_to_select, dictAdd, takeFirst]

theorem step_A2_A3 :
    Coord.on_message aggL takeFirst cA2 (.endTrainingReq 7) "p2" =
      .ok (.endTraining, cA3) := by
  norm_num [cA2, cA3, Coord.on_message, Coord.handle_end_training,
    Round.add_updates, Round.keys, Round.is_finished, Round.get_theta_updates,
    aggL]

theorem step_A3_A4 :
    Coord.on_message aggL takeFirst cA3 (.endTrainingReq 9) "p1" =
      .ok (.endTraining, cA4) := by
  have h : ("p1" : String) ≠ "p2" := by simp
  norm_num [h, cA3, cA4, Coord.on_message, Coord.handle_end_training,
    Round.add_updates, Round.keys, Round.is_finished]

theorem step_B0_B1 :
    Coord.on_message aggL takeFirst cB0 .rendezvousReq "p1" =
      .ok (.rendezvous .ACCEPT, cB1) := by
  norm_num [cB0, cB1, Coord.init, Coord.on_message, Coord.handle_rendezvous,
    Coord.min_connected, Coord.get_minimum_connected_participants,
    Coord.select_participant_ids_and_init_round, select_ids,
    get_num_ids_to_select, dictAdd, takeFirst]

theorem step_B1_later :
    Coord.on_message aggL takeFirst cB1 .rendezvousReq "p1" =
      .ok (.rendezvous .LATER, cB1) := by
  norm_num [cB1, Coord.on_message, Coord.handle_rendezvous,
    Coord.min_connected, Coord.get_minimum_connected_participants]

theorem step_B1_B2 :
    Coord.on_message aggL takeFirst cB1 (.endTrainingReq 5) "p1" =
      .ok (.endTraining, cB2) := by
  norm_num [cB1, cB2, Coord.on_message, Coord.handle_end_training,
    Round.add_updates, Round.keys, Round.is_finished, Round.get_theta_updates,
    aggL]

theorem step_C0_C1 :
    Coord.on_message aggL takeFirst cC0 .rendezvousReq "p1" =
      .ok (.rendezvous .ACCEPT, cC1) := by
  norm_num [cC0, cC1, Coord.init, Coord.on_message, Coord.handle_rendezvous,
    Coord.min_connected, Coord.get_minimum_connected_participants,
    Coord.select_participant_ids_and_init_round, select_ids,
    get_num_ids_to_select, dictAdd, takeFirst]

theorem step_C1_C2 :
    Coord.on_message aggL takeFirst cC1 .rendezvousReq "p2" =
      .ok (.rendezvous .ACCEPT, cC2) := by
  have h : ("p2" : String) ≠ "p1" := by simp
  norm_num [h, cC1, cC2, Coord.on_message, Coord.handle_rendezvous,
    Coord.min_connected, Coord.get_minimum_connected_participants,
    Coord.select_participant_ids_and_init_round, select_ids,
    get_num_ids_to_select, dictAdd, takeFirst]

theorem step_C2_C3 :
    Coord.on_message aggL takeFirst cC2 (.endTrainingReq 7) "p2" =
      .ok (.endTraining, cC3) := by
  norm_num [cC2, cC3, Coord.on_message, Coord.handle_end_training,
    Round.add_updates, Round.keys, Round.is_finished]

theorem step_C3_C4 :
    Coord.on_message aggL takeFirst cC3 (.endTrainingReq 9) "p1" =
      .ok (.endTraining, cC4) := by
  have h : ("p1" : String) ≠ "p2" := by simp
  norm_num [h, cC3, cC4, Coord.on_message, Coord.handle_end_training,
    Round.add_updates, Round.keys, Round.is_finished, Round.get_theta_updates,
    aggL]

theorem reach_A2 : Reachable aggL cA0 cA2 :=
  Relation.ReflTransGen.trans
    (Relation.ReflTransGen.single (CStep.msg _ _ takeFirst validPick_takeFirst _ step_A0_A1))
    (Relation.ReflTransGen.single (CStep.msg _ _ takeFirst validPick_takeFirst _ step_A1_A2))

theorem reach_A3 : Reachable aggL cA0 cA3 :=
  Relation.ReflTransGen.tail reach_A2 (CStep.msg _ _ takeFirst validPick_takeFirst _ step_A2_A3)

theorem reach_A4 : Reachable aggL cA0 cA4 :=
  Relation.ReflTransGen.tail reach_A3 (CStep.msg _ _ takeFirst validPick_takeFirst _ step_A3_A4)

theorem reach_B1 : Reachable aggL cB0 cB1 :=
  Relation.ReflTransGen.single (CStep.msg _ _ takeFirst validPick_takeFirst _ step_B0_B1)

theorem reach_B2 : Reachable aggL cB0 cB2 :=
  Relation.ReflTransGen.tail reach_B1 (CStep.msg _ _ takeFirst validPick_takeFirst _ step_B1_B2)

theorem reach_C4 : Reachable aggL cC0 cC4 :=
  Relation.ReflTransGen.tail
    (Relation.ReflTransGen.tail
      (Relation.ReflTransGen.tail
        (Relation.ReflTransGen.single
          (CStep.msg _ _ takeFirst validPick_takeFirst _ step_C0_C1))
        (CStep.msg _ _ takeFirst validPick_takeFirst _ step_C1_C2))
      (CStep.msg _ _ takeFirst validPick_takeFirst _ step_C2_C3))
    (CStep.msg _ _ takeFirst validPick_takeFirst _ step_C3_C4)

/-! ## Claim C2 -/

/-- C2 counterexample: at `min_in_round = 1`, `fraction = 3/4` (a dyadic
float, exactly representable), the code's floor division gives `1`, while
the claimed ceiling is `2`. -/
theorem claim_C2_counterexample :
    Coord.get_minimum_connected_participants 1 (3/4) = 1 ∧
    (⌈(1 : ℚ) / (3/4)⌉ : ℤ) = 2 ∧
    Coord.get_minimum_connected_participants 1 (3/4) ≠ ⌈(1 : ℚ) / (3/4)⌉ := by
  have h1 : Coord.get_minimum_connected_participants 1 (3/4) = 1 := by
    norm_num [Coord.get_minimum_connected_participants]
  have h2 : (⌈(1 : ℚ) / (3/4)⌉ : ℤ) = 2 := by
    rw [Int.ceil_eq_iff] <;> norm_num
  refine ⟨h1, h2, ?_⟩
  rw [h1, h2]
  decide

/-- C2 amended: `get_minimum_connected_participants` is the floor (not the
ceiling) of `min_in_round / fraction`; it is at least `min_in_round`,
within one of the claimed ceiling, and the floor threshold still suffices:
a selection over exactly `min_connected` candidates picks at least
`min_in_round` participants. -/
theorem claim_C2_amended (m : ℕ) (f : ℚ) (hm : 1 ≤ m) (hf0 : 0 < f)
    (hf1 : f ≤ 1) :
    Coord.get_minimum_connected_participants m f = ⌊(m : ℚ) / f⌋ ∧
    (m : ℤ) ≤ Coord.get_minimum_connected_participants m f ∧
    ⌈(m : ℚ) / f⌉ - 1 ≤ Coord.get_minimum_connected_participants m f ∧
    Coord.get_minimum_connected_participants m f ≤ ⌈(m : ℚ) / f⌉ ∧
    (m : ℤ) ≤ get_num_ids_to_select
      (Coord.get_minimum_connected_participants m f).toNat f := by
  unfold Coord.get_minimum_connected_participants get_num_ids_to_select
  have hfloor : (m : ℤ) ≤ ⌊(m : ℚ) / f⌋ := by
    rw [Int.le_floor]
    rw [le_div_iff hf0]
    push_cast
    exact mul_le_of_le_one_right (by positivity) hf1
  refine ⟨rfl, hfloor, ?_, Int.floor_le_ceil _, ?_⟩
  · have := Int.ceil_le_floor_add_one ((m : ℚ) / f)
    omega
  · set mc : ℤ := ⌊(m : ℚ) / f⌋ with hmc
    have hmc0 : 0 ≤ mc := le_trans (by positivity) hfloor
    have hcast : ((mc.toNat : ℕ) : ℤ) = mc := Int.toNat_of_nonneg hmc0
    refine le_min (by omega) ?_
    have hceil : (m : ℤ) ≤ ⌈((mc.toNat : ℕ) : ℚ) * f⌉ := by
      have h1 : ((m : ℚ) / f - 1) < (mc : ℚ) := by
        exact_mod_cast Int.sub_one_lt_floor ((m : ℚ) / f)
      have h2 : (m : ℚ) < ((mc : ℚ) + 1) * f := by
        rw [← div_lt_iff hf0]
        linarith
      have h3 : (m : ℚ) - 1 < (mc : ℚ) * f := by nlinarith
      have h4 : ((m : ℤ) - 1 : ℤ) < ⌈(mc : ℚ) * f⌉ := by
        rw [Int.lt_ceil]
        push_cast
        exact h3
      have h5 : ((mc.toNat : ℕ) : ℚ) = (mc : ℚ) := by
        exact_mod_cast congrArg (fun z : ℤ => (z : ℚ)) hcast
      rw [h5]
      omega
    exact le_trans hceil (le_max_right _ _)

/-- C2 witness: the amended statement holds at `min_in_round = 2`,
`fraction = 3/4`. -/
theorem claim_C2_witness :
    (1 ≤ 2 ∧ (0 : ℚ) < 3/4 ∧ (3/4 : ℚ) ≤ 1) ∧
    (Coord.get_minimum_connected_participants 2 (3/4) = ⌊(2 : ℚ) / (3/4)⌋ ∧
     ((2 : ℕ) : ℤ) ≤ Coord.get_minimum_connected_participants 2 (3/4) ∧
     ⌈((2 : ℕ) : ℚ) / (3/4)⌉ - 1 ≤ Coord.get_minimum_connected_participants 2 (3/4) ∧
     Coord.get_minimum_connected_participants 2 (3/4) ≤ ⌈((2 : ℕ) : ℚ) / (3/4)⌉ ∧
     ((2 : ℕ) : ℤ) ≤ get_num_ids_to_select
       (Coord.get_minimum_connected_participants 2 (3/4)).toNat (3/4)) :=
  ⟨⟨by norm_num, by norm_num, by norm_num⟩,
    claim_C2_amended 2 (3/4) (by norm_num) (by norm_num) (by norm_num)⟩

/-! ## Claim C9 -/

/-- C9: for a non-empty candidate list and a fraction in `(0, 1]`, any
selection allowed by numpy's contract has size
`clamp(1, ceil(n * fraction), n)` (written `min n (max 1 ...)`) and is a
without-replacement sample of the candidates. -/
theorem claim_C9 (pick : Pick) (hp : ValidPick pick) (ids : List String)
    (f : ℚ) (hne : ids ≠ []) (hf0 : 0 < f) (hf1 : f ≤ 1) :
    ((select_ids pick ids f).length : ℤ) =
      min (ids.length : ℤ) (max 1 ⌈(ids.length : ℚ) * f⌉) ∧
    (select_ids pick ids f).Subperm ids := by
  have hk0 : 0 ≤ get_num_ids_to_select ids.length f := by
    unfold get_num_ids_to_select
    refine le_min (by positivity) ?_
    exact le_trans zero_le_one (le_max_left _ _)
  have hkn : (get_num_ids_to_select ids.length f).toNat ≤ ids.length := by
    rw [Int.toNat_le]
    exact min_le_left _ _
  obtain ⟨hlen, hsub⟩ := hp ids _ hkn
  constructor
  · rw [select_ids, hlen, Int.toNat_of_nonneg hk0]
    rfl
  · exact hsub

/-- C9 witness: three candidates, fraction `1/2`, oracle `takeFirst`. -/
theorem claim_C9_witness :
    (ValidPick takeFirst ∧ (["a", "b", "c"] : List String) ≠ [] ∧
      (0 : ℚ) < 1/2 ∧ (1/2 : ℚ) ≤ 1) ∧
    (((select_ids takeFirst ["a", "b", "c"] (1/2)).length : ℤ) =
      min ((["a", "b", "c"] : List String).length : ℤ)
        (max 1 ⌈(((["a", "b", "c"] : List String).length : ℕ) : ℚ) * (1/2)⌉) ∧
     (select_ids takeFirst ["a", "b", "c"] (1/2)).Subperm ["a", "b", "c"]) :=
  ⟨⟨validPick_takeFirst, by simp, by norm_num, by norm_num⟩,
    claim_C9 takeFirst validPick_takeFirst ["a", "b", "c"] (1/2)
      (by simp) (by norm_num) (by norm_num)⟩

/-! ## Claim C10 -/

/-- C10: a heartbeat from a registered participant is answered with state
ROUND when the caller is among the round's selected ids and STANDBY
otherwise; the coordinator state is untouched and the advertised state is
never FINISHED, whatever the global state (FINISHED included). -/
theorem claim_C10 (agg : List U → T) (pick : Pick) (c : Coord T U)
    (i : String) (hreg : i ∈ c.participants) :
    Coord.on_message agg pick c .heartbeatReq i =
      .ok (.heartbeat
        (if i ∈ c.round.participant_ids then .ROUND else .STANDBY)
        c.current_round, c) ∧
    (if i ∈ c.round.participant_ids then CState.ROUND else CState.STANDBY) ≠
      CState.FINISHED := by
  constructor
  · simp [Coord.on_message, hreg, Coord.handle_heartbeat]
  · split <;> simp

/-- C10 witness: heartbeat of the selected `p1` at the FINISHED state
`cA3` — the reply advertises ROUND, not FINISHED. -/
theorem claim_C10_witness :
    ("p1" ∈ cA3.participants ∧ cA3.state = .FINISHED) ∧
    (Coord.on_message aggL takeFirst cA3 .heartbeatReq "p1" =
      .ok (.heartbeat
        (if "p1" ∈ cA3.round.participant_ids then .ROUND else .STANDBY)
        cA3.current_round, cA3) ∧
     (if "p1" ∈ cA3.round.participant_ids then CState.ROUND else CState.STANDBY) ≠
       CState.FINISHED) :=
  ⟨⟨by simp [cA3], rfl⟩, claim_C10 aggL takeFirst cA3 "p1" (by simp [cA3])⟩

/-! ## Shared handler characterizations -/

/-- A successful `end_training` from a registered caller whose update does
not complete the round: the update is inserted and nothing else changes.
No membership check against `round.participant_ids` is involved. -/
theorem end_training_fresh (agg : List U → T) (pick : Pick) (c : Coord T U)
    (i : String) (u : U) (hreg : i ∈ c.participants) (hnew : i ∉ c.round.keys)
    (hnf : c.round.updates.length + 1 ≠ c.round.participant_ids.length) :
    Coord.on_message agg pick c (.endTrainingReq u) i =
      .ok (.endTraining,
        { c with round := ⟨c.round.participant_ids, c.round.updates ++ [(i, u)]⟩ }) := by
  simp only [Coord.on_message, if_pos hreg, Coord.handle_end_training,
    Round.add_updates, if_neg hnew, Round.is_finished, Round.get_theta_updates]
  rw [if_neg]
  simp only [List.length_append, List.length_cons, List.length_nil]
  simpa using hnf

/-- A successful `end_training` that completes the last round: the update
is inserted, the aggregator is fed the updates in submission order, and the
state becomes FINISHED. -/
theorem end_training_finishing (agg : List U → T) (pick : Pick)
    (c : Coord T U) (i : String) (u : U) (hreg : i ∈ c.participants)
    (hnew : i ∉ c.round.keys)
    (hfin : c.round.updates.length + 1 = c.round.participant_ids.length)
    (hlast : c.current_round = c.num_rounds) :
    Coord.on_message agg pick c (.endTrainingReq u) i =
      .ok (.endTraining,
        { c with
            round := ⟨c.round.participant_ids, c.round.updates ++ [(i, u)]⟩
            theta := agg ((c.round.updates ++ [(i, u)]).map Prod.snd)
            state := .FINISHED }) := by
  simp only [Coord.on_message, if_pos hreg, Coord.handle_end_training,
    Round.add_updates, if_neg hnew, Round.is_finished, Round.get_theta_updates]
  rw [if_pos, if_pos hlast]
  simp only [List.length_append, List.length_cons, List.length_nil]
  simpa using hfin

/-! ## Claim C5 -/

/-- C5 amended: the rendezvous handler never looks the caller up; for an
already-registered caller the registry is unchanged in both cases, but the
response is ACCEPT only while the registry is below
`minimum_connected_participants`, and LATER once it is full. -/
theorem claim_C5_amended (agg : List U → T) (pick : Pick) (c : Coord T U)
    (i : String) (hmem : i ∈ c.participants) :
    (((c.participants.length : ℤ) < c.min_connected →
        Coord.on_message agg pick c .rendezvousReq i =
          .ok (.rendezvous .ACCEPT, c)) ∧
     (c.min_connected ≤ (c.participants.length : ℤ) →
        Coord.on_message agg pick c .rendezvousReq i =
          .ok (.rendezvous .LATER, c))) := by
  have hadd : dictAdd c.participants i = c.participants := by
    simp [dictAdd, hmem]
  constructor
  · intro hlt
    simp only [Coord.on_message, Coord.handle_rendezvous, hadd]
    rw [if_pos hlt, if_neg (ne_of_lt hlt)]
  · intro hge
    simp only [Coord.on_message, Coord.handle_rendezvous]
    rw [if_neg (not_lt.mpr hge)]

/-- C5 counterexample: with `min_in_round = 1`, `fraction = 1` the
reachable state `cB1` has `p1` registered and the registry full; `p1`'s
re-rendezvous is answered LATER, not ACCEPT. -/
theorem claim_C5_counterexample :
    Reachable aggL cB0 cB1 ∧ "p1" ∈ cB1.participants ∧
    Coord.on_message aggL takeFirst cB1 .rendezvousReq "p1" =
      .ok (.rendezvous .LATER, cB1) :=
  ⟨reach_B1, by simp [cB1], step_B1_later⟩

/-- C5 witness: the amended statement applied at `cB1` and caller `p1`. -/
theorem claim_C5_witness :
    ("p1" ∈ cB1.participants) ∧
    (((cB1.participants.length : ℤ) < cB1.min_connected →
        Coord.on_message aggL takeFirst cB1 .rendezvousReq "p1" =
          .ok (.rendezvous .ACCEPT, cB1)) ∧
     (cB1.min_connected ≤ (cB1.participants.length : ℤ) →
        Coord.on_message aggL takeFirst cB1 .rendezvousReq "p1" =
          .ok (.rendezvous .LATER, cB1))) :=
  ⟨by simp [cB1], claim_C5_amended aggL takeFirst cB1 "p1" (by simp [cB1])⟩

/-! ## Claim C8 -/

/-- C8: the `_handle_start_training` precondition behaves as claimed (a
registered caller in a non-ROUND state gets `InvalidRequestError`, a
selected caller during ROUND gets the weights, epochs and epoch base), but
the RPC surface cannot deliver FAILED_PRECONDITION: the `except
InvalidRequestError` branch of `CoordinatorGrpc.StartTraining` calls
`context.set_Code` — a method that does not exist (`set_code` is the real
name) — so Python raises `AttributeError` there instead of setting the
status code. -/
theorem claim_C8_code_bug :
    Coord.on_message aggL takeFirst cS .startTrainingReq "p1" =
      .error .InvalidRequest ∧
    grpcStartTraining aggL takeFirst cS "p1" = .raisedAttributeError cS ∧
    grpcStartTraining aggL takeFirst cR "p1" =
      .reply (.startTraining [3] 5 2) cR := by
  refine ⟨?_, ?_, ?_⟩ <;> rfl

/-! ## Claim C7 -/

/-- C7: at-most-once update with error atomicity.  The first submission of
a participant in a round is accepted and recorded; a second submission by
the same participant in the same round is answered ALREADY_EXISTS and the
coordinator — in particular the round's `updates` map — is exactly the
state before the duplicate call.  The duplicate check is the same in both
`Round` classes (`grpc/coordinator.py` and `coordinator/round.py`). -/
theorem claim_C7 {T U W N : Type} (agg : List U → T) (pick : Pick)
    (c : Coord T U) (i : String) (u u' : U) (hreg : i ∈ c.participants)
    (hnew : i ∉ c.round.keys)
    (hnf : c.round.updates.length + 1 ≠ c.round.participant_ids.length) :
    grpcEndTraining agg pick c i u =
      .reply .endTraining
        { c with round := ⟨c.round.participant_ids, c.round.updates ++ [(i, u)]⟩ } ∧
    grpcEndTraining agg pick
        { c with round := ⟨c.round.participant_ids, c.round.updates ++ [(i, u)]⟩ } i u' =
      .status .ALREADY_EXISTS
        { c with round := ⟨c.round.participant_ids, c.round.updates ++ [(i, u)]⟩ } ∧
    (∀ (r : Round U) (v : U), i ∈ r.keys →
        r.add_updates i v = .error .DuplicatedUpdate) ∧
    (∀ (r2 : RoundPy W N) (w : W) (n : N), i ∈ r2.keys →
        r2.add_updates i w n = .error .DuplicatedUpdate) := by
  refine ⟨?_, ?_, ?_, ?_⟩
  · rw [grpcEndTraining, end_training_fresh agg pick c i u hreg hnew hnf]
  · have hmem2 : i ∈ (Round.mk c.round.participant_ids
        (c.round.updates ++ [(i, u)]) : Round U).keys := by
      simp [Round.keys]
    rw [grpcEndTraining]
    simp only [Coord.on_message, if_pos hreg, Coord.handle_end_training,
      Round.add_updates, if_pos hmem2]
  · intro r v hk
    simp [Round.add_updates, if_pos hk]
  · intro r2 w n hk
    simp [RoundPy.add_updates, if_pos hk]

/-- C7 witness: in the reachable ROUND state `cC2`, `p2`'s first update is
recorded (state `cC3`), and its second attempt gets ALREADY_EXISTS with the
coordinator exactly at `cC3`. -/
theorem claim_C7_witness :
    ("p2" ∈ cC2.participants ∧ "p2" ∉ cC2.round.keys ∧
      cC2.round.updates.length + 1 ≠ cC2.round.participant_ids.length) ∧
    grpcEndTraining aggL takeFirst cC2 "p2" 7 = .reply .endTraining cC3 ∧
    grpcEndTraining aggL takeFirst cC3 "p2" 8 = .status .ALREADY_EXISTS cC3 := by
  have hA : "p2" ∈ cC2.participants := by simp [cC2]
  have hB : "p2" ∉ cC2.round.keys := by simp [cC2, Round.keys]
  have hC : cC2.round.updates.length + 1 ≠ cC2.round.participant_ids.length := by
    simp [cC2]
  exact ⟨⟨hA, hB, hC⟩,
    (@claim_C7 (List ℕ) ℕ ℕ ℕ aggL takeFirst cC2 "p2" 7 8 hA hB hC).1,
    (@claim_C7 (List ℕ) ℕ ℕ ℕ aggL takeFirst cC2 "p2" 7 8 hA hB hC).2.1⟩

/-! ## Claim C6 -/

theorem lookupKey_isSome_of_mem {V : Type} (i : String)
    (l : List (String × V)) (h : i ∈ l.map Prod.fst) :
    (lookupKey i l).isSome := by
  induction l with
  | nil => simp at h
  | cons p t ih =>
    simp only [List.map_cons, List.mem_cons] at h
    by_cases hpi : p.1 = i
    · simp [lookupKey, hpi]
    · rcases h with h | h
      · exact absurd h.symm hpi
      · simpa [lookupKey, hpi] using ih h

theorem mapM_lookup_eq_filterMap {V : Type} (g : String → Option V) :
    ∀ (l : List String), (∀ i ∈ l, (g i).isSome) →
      l.mapM g = some (l.filterMap g)
  | [], _ => rfl
  | a :: t, h => by
    obtain ⟨v, hv⟩ := Option.isSome_iff_exists.mp (h a (by simp))
    have ht := mapM_lookup_eq_filterMap g t (fun i hi => h i (by simp [hi]))
    rw [← List.mapM'_eq_mapM] at ht ⊢
    simp only [List.mapM', hv, ht, List.filterMap_cons, Option.pure_def,
      Option.bind_eq_bind, Option.some_bind]

/-- The `round.py` snapshot on a finished round: no `KeyError`, and the two
returned lists are the stored values read off in `participant_ids`
(selection) order. -/
theorem roundpy_snapshot_order {W N : Type} (r : RoundPy W N)
    (hf : r.is_finished = true) :
    r.get_weight_updates = .ok
      (r.participant_ids.filterMap (fun i => (lookupKey i r.updates).map Prod.fst),
       r.participant_ids.filterMap (fun i => (lookupKey i r.updates).map Prod.snd)) := by
  have hall : ∀ i ∈ r.participant_ids, (lookupKey i r.updates).isSome := by
    intro i hi
    simp only [RoundPy.is_finished, List.all_eq_true, decide_eq_true_eq] at hf
    exact lookupKey_isSome_of_mem i r.updates (hf i hi)
  unfold RoundPy.get_weight_updates
  rw [mapM_lookup_eq_filterMap _ _ hall]
  simp [List.map_filterMap]

/-- C6 amended: the grpc coordinator hands the aggregator the updates in
submission (insertion-into-`updates`) order — the `theta` written at the
end of the last round is `agg` applied to the stored updates in the order
they were submitted, not in `participants_selected` order.  The standalone
`Round.get_weight_updates` of `coordinator/round.py` (not used by the grpc
coordinator) does return parallel lists in `participants_selected`
insertion order. -/
theorem claim_C6_amended {T U W N : Type} (agg : List U → T) (pick : Pick)
    (c : Coord T U) (i : String) (u : U) (hreg : i ∈ c.participants)
    (hnew : i ∉ c.round.keys)
    (hfin : c.round.updates.length + 1 = c.round.participant_ids.length)
    (hlast : c.current_round = c.num_rounds) :
    Coord.on_message agg pick c (.endTrainingReq u) i =
      .ok (.endTraining,
        { c with
            round := ⟨c.round.participant_ids, c.round.updates ++ [(i, u)]⟩
            theta := agg ((c.round.updates ++ [(i, u)]).map Prod.snd)
            state := .FINISHED }) ∧
    (∀ (r : RoundPy W N), r.is_finished = true →
      r.get_weight_updates = .ok
        (r.participant_ids.filterMap (fun j => (lookupKey j r.updates).map Prod.fst),
         r.participant_ids.filterMap (fun j => (lookupKey j r.updates).map Prod.snd))) :=
  ⟨end_training_finishing agg pick c i u hreg hnew hfin hlast,
    fun r hf => roundpy_snapshot_order r hf⟩

/-- C6 counterexample: in the reachable run of trace C the selected order
is `[p1, p2]` but the submissions arrive `p2` then `p1`; with the
list-identity aggregator the final `theta` is the submission-order list
`[7, 9]`, not the `participants_selected`-order list `[9, 7]` the claim
prescribes. -/
theorem claim_C6_counterexample :
    Reachable aggL cC0 cC4 ∧
    cC4.theta = [7, 9] ∧
    snapshotBySelected cC4.round = [9, 7] ∧
    cC4.theta ≠ snapshotBySelected cC4.round := by
  refine ⟨reach_C4, rfl, ?_, ?_⟩ <;>
    simp [cC4, snapshotBySelected, lookupKey]

/-- C6 witness: the amended statement applied at `cC3` with the finishing
submission of `p1`, and at a concrete finished `RoundPy`. -/
theorem claim_C6_witness :
    ("p1" ∈ cC3.participants ∧ "p1" ∉ cC3.round.keys ∧
      cC3.round.updates.length + 1 = cC3.round.participant_ids.length ∧
      cC3.current_round = cC3.num_rounds) ∧
    Coord.on_message aggL takeFirst cC3 (.endTrainingReq 9) "p1" =
      .ok (.endTraining, cC4) ∧
    (RoundPy.mk ["q1", "q2"] [("q2", (20, 2)), ("q1", (10, 1))] :
        RoundPy ℕ ℕ).get_weight_updates = .ok ([10, 20], [1, 2]) := by
  have hA : "p1" ∈ cC3.participants := by simp [cC3]
  have hB : "p1" ∉ cC3.round.keys := by simp [cC3, Round.keys]
  have hC : cC3.round.updates.length + 1 = cC3.round.participant_ids.length := by
    simp [cC3]
  have hD : cC3.current_round = cC3.num_rounds := by simp [cC3]
  have h := @claim_C6_amended (List ℕ) ℕ ℕ ℕ aggL takeFirst cC3 "p1" 9 hA hB hC hD
  refine ⟨⟨hA, hB, hC, hD⟩, h.1, ?_⟩
  have h2 := h.2 (RoundPy.mk ["q1", "q2"] [("q2", (20, 2)), ("q1", (10, 1))])
    (by simp [RoundPy.is_finished, RoundPy.keys])
  rw [h2]
  simp [lookupKey]

/-! ## Claim C3 -/

/-- C3 amended: the coordinator's `end_training` handler performs no
membership check against `round.participant_ids` — the only acceptance
conditions are registration and non-duplication.  A registered caller that
is **not** selected still gets its update inserted into `round.updates`,
so a key of `round.updates` need not ever have been in
`round.participants_selected`. -/
theorem claim_C3_amended (agg : List U → T) (pick : Pick) (c : Coord T U)
    (i : String) (u : U) (hreg : i ∈ c.participants)
    (hnew : i ∉ c.round.keys) (hnotsel : i ∉ c.round.participant_ids)
    (hnf : c.round.updates.length + 1 ≠ c.round.participant_ids.length) :
    Coord.on_message agg pick c (.endTrainingReq u) i =
      .ok (.endTraining,
        { c with round := ⟨c.round.participant_ids, c.round.updates ++ [(i, u)]⟩ }) ∧
    i ∈ (Round.mk c.round.participant_ids (c.round.updates ++ [(i, u)]) : Round U).keys ∧
    i ∉ (Round.mk c.round.participant_ids (c.round.updates ++ [(i, u)]) : Round U).participant_ids :=
  ⟨end_training_fresh agg pick c i u hreg hnew hnf, by simp [Round.keys], hnotsel⟩

/-- C3 counterexample: in the reachable state `cA3`, `p2` is a key of
`round.updates` although `p2` was never in `round.participants_selected`
(that round's selection was `["p1"]` from its creation on). -/
theorem claim_C3_counterexample :
    Reachable aggL cA0 cA3 ∧ "p2" ∈ cA3.round.keys ∧
    "p2" ∉ cA3.round.participant_ids :=
  ⟨reach_A3, by simp [cA3, Round.keys], by simp [cA3]⟩

/-- C3 witness: the amended statement applied at the state `cW`, whose
round selected `[p1, p2]`, with the registered unselected caller `p3`. -/
theorem claim_C3_witness :
    ("p3" ∈ cW.participants ∧ "p3" ∉ cW.round.keys ∧
      "p3" ∉ cW.round.participant_ids ∧
      cW.round.updates.length + 1 ≠ cW.round.participant_ids.length) ∧
    (Coord.on_message aggL takeFirst cW (.endTrainingReq 9) "p3" =
      .ok (.endTraining,
        { cW with round := ⟨cW.round.participant_ids, cW.round.updates ++ [("p3", 9)]⟩ }) ∧
     "p3" ∈ (Round.mk cW.round.participant_ids (cW.round.updates ++ [("p3", 9)]) : Round ℕ).keys ∧
     "p3" ∉ (Round.mk cW.round.participant_ids (cW.round.updates ++ [("p3", 9)]) : Round ℕ).participant_ids) := by
  have hA : "p3" ∈ cW.participants := by simp [cW]
  have hB : "p3" ∉ cW.round.keys := by simp [cW, Round.keys]
  have hC : "p3" ∉ cW.round.participant_ids := by simp [cW]
  have hD : cW.round.updates.length + 1 ≠ cW.round.participant_ids.length := by
    simp [cW]
  exact ⟨⟨hA, hB, hC, hD⟩, claim_C3_amended aggL takeFirst cW "p3" 9 hA hB hC hD⟩

/-! ## Dispatch and handler characterizations for the invariant proofs -/

theorem on_message_rendezvous_ok (agg : List U → T) (pick : Pick)
    (c : Coord T U) (i : String) (r : Reply T U) (c' : Coord T U)
    (h : Coord.on_message agg pick c .rendezvousReq i = .ok (r, c')) :
    c' = (Coord.handle_rendezvous pick c i).2 := by
  simp only [Coord.on_message] at h
  simp only [Except.ok.injEq, Prod.mk.injEq] at h
  exact h.2.symm

theorem on_message_heartbeat_ok (agg : List U → T) (pick : Pick)
    (c : Coord T U) (i : String) (r : Reply T U) (c' : Coord T U)
    (h : Coord.on_message agg pick c .heartbeatReq i = .ok (r, c')) :
    c' = c := by
  simp only [Coord.on_message] at h
  by_cases hreg : i ∈ c.participants
  · rw [if_pos hreg] at h
    exact (congrArg Prod.snd (Except.ok.inj h)).symm
  · rw [if_neg hreg] at h
    exact absurd h (by simp)

theorem on_message_start_ok (agg : List U → T) (pick : Pick)
    (c : Coord T U) (i : String) (r : Reply T U) (c' : Coord T U)
    (h : Coord.on_message agg pick c .startTrainingReq i = .ok (r, c')) :
    c' = c := by
  simp only [Coord.on_message] at h
  by_cases hreg : i ∈ c.participants
  · rw [if_pos hreg] at h
    unfold Coord.handle_start_training at h
    split at h
    · exact absurd h (by simp)
    · simp only [Except.ok.injEq, Prod.mk.injEq] at h
      exact h.2.symm
  · rw [if_neg hreg] at h
    exact absurd h (by simp)

theorem on_message_end_ok (agg : List U → T) (pick : Pick)
    (c : Coord T U) (i : String) (u : U) (r : Reply T U) (c' : Coord T U)
    (h : Coord.on_message agg pick c (.endTrainingReq u) i = .ok (r, c')) :
    i ∈ c.participants ∧
    Coord.handle_end_training agg pick c i u = .ok (r, c') := by
  simp only [Coord.on_message] at h
  by_cases hreg : i ∈ c.participants
  · rw [if_pos hreg] at h
    exact ⟨hreg, h⟩
  · rw [if_neg hreg] at h
    exact absurd h (by simp)

/-- Outcome of `_handle_rendezvous` on the state: either the coordinator
moved to ROUND (threshold reached) or state, round, current round and the
round budget are untouched. -/
theorem handle_rendezvous_snd (pick : Pick) (c : Coord T U) (i : String) :
    (Coord.handle_rendezvous pick c i).2.state = .ROUND ∨
    ((Coord.handle_rendezvous pick c i).2.state = c.state ∧
     (Coord.handle_rendezvous pick c i).2.round = c.round ∧
     (Coord.handle_rendezvous pick c i).2.current_round = c.current_round ∧
     (Coord.handle_rendezvous pick c i).2.num_rounds = c.num_rounds) := by
  unfold Coord.handle_rendezvous
  split
  · split
    · exact Or.inl rfl
    · exact Or.inr ⟨rfl, rfl, rfl, rfl⟩
  · exact Or.inr ⟨rfl, rfl, rfl, rfl⟩

/-- `remove_participant` either falls back to STANDBY or keeps the state;
it never touches the round, the round counter or the budget. -/
theorem remove_participant_fields (c : Coord T U) (i : String) :
    ((Coord.remove_participant c i).state = .STANDBY ∨
      (Coord.remove_participant c i).state = c.state) ∧
    (Coord.remove_participant c i).round = c.round ∧
    (Coord.remove_participant c i).current_round = c.current_round ∧
    (Coord.remove_participant c i).num_rounds = c.num_rounds := by
  unfold Coord.remove_participant
  split
  · exact ⟨Or.inl rfl, rfl, rfl, rfl⟩
  · exact ⟨Or.inr rfl, rfl, rfl, rfl⟩

/-- Complete case analysis of a successful `_handle_end_training`. -/
theorem handle_end_training_cases (agg : List U → T) (pick : Pick)
    (c : Coord T U) (i : String) (u : U) (r : Reply T U) (c' : Coord T U)
    (h : Coord.handle_end_training agg pick c i u = .ok (r, c')) :
    i ∉ c.round.keys ∧ r = .endTraining ∧
    ((c.round.updates.length + 1 ≠ c.round.participant_ids.length ∧
       c' = { c with round := ⟨c.round.participant_ids, c.round.updates ++ [(i, u)]⟩ }) ∨
     (c.round.updates.length + 1 = c.round.participant_ids.length ∧
       c.current_round = c.num_rounds ∧
       c' = { c with
           round := ⟨c.round.participant_ids, c.round.updates ++ [(i, u)]⟩
           theta := agg ((c.round.updates ++ [(i, u)]).map Prod.snd)
           state := .FINISHED }) ∨
     (c.round.updates.length + 1 = c.round.participant_ids.length ∧
       c.current_round ≠ c.num_rounds ∧
       c'.state = c.state ∧ c'.current_round = c.current_round + 1 ∧
       c'.num_rounds = c.num_rounds)) := by
  by_cases hmem : i ∈ c.round.keys
  · have hadd : c.round.add_updates i u = .error .DuplicatedUpdate := by
      unfold Round.add_updates
      rw [if_pos hmem]
    unfold Coord.handle_end_training at h
    simp only [hadd] at h
    exact absurd h (by simp)
  · have hadd : c.round.add_updates i u =
        .ok ⟨c.round.participant_ids, c.round.updates ++ [(i, u)]⟩ := by
      unfold Round.add_updates
      rw [if_neg hmem]
    unfold Coord.handle_end_training at h
    simp only [hadd] at h
    refine ⟨hmem, ?_, ?_⟩ <;>
    · split at h
      next hfin =>
        simp only [Round.is_finished, List.length_append, List.length_cons,
          List.length_nil, beq_iff_eq] at hfin
        split at h
        next hlast =>
          simp only [Except.ok.injEq, Prod.mk.injEq] at h
          first
          | exact h.1.symm
          | exact Or.inr (Or.inl ⟨by omega, hlast, h.2.symm⟩)
        next hlast =>
          simp only [Except.ok.injEq, Prod.mk.injEq] at h
          first
          | exact h.1.symm
          | (refine Or.inr (Or.inr ⟨by omega, hlast, ?_, ?_, ?_⟩) <;>
              (rw [← h.2]; rfl))
      next hfin =>
        simp only [Round.is_finished, List.length_append, List.length_cons,
          List.length_nil, beq_iff_eq] at hfin
        simp only [Except.ok.injEq, Prod.mk.injEq] at h
        first
        | exact h.1.symm
        | exact Or.inl ⟨by omega, h.2.symm⟩

/-- One step preserves the FINISHED invariant: in a FINISHED state the
round counter equals the budget and the round holds at least as many
updates as selected ids. -/
theorem step_preserves_finished_inv (agg : List U → T) (b c : Coord T U)
    (hstep : CStep agg b c)
    (ihb : b.state = .FINISHED →
      b.current_round = b.num_rounds ∧
      b.round.participant_ids.length ≤ b.round.updates.length) :
    c.state = .FINISHED →
      c.current_round = c.num_rounds ∧
      c.round.participant_ids.length ≤ c.round.updates.length := by
  intro hF
  cases hstep with
  | msg mm ii pick hp rr h =>
    cases mm with
    | rendezvousReq =>
      have hc := on_message_rendezvous_ok agg pick b ii rr c h
      subst hc
      rcases handle_rendezvous_snd pick b ii with hs | ⟨hs, hrd, hcr, hnr⟩
      · rw [hs] at hF
        exact absurd hF (by simp)
      · rw [hs] at hF
        obtain ⟨ih1, ih2⟩ := ihb hF
        rw [hcr, hnr, hrd]
        exact ⟨ih1, ih2⟩
    | heartbeatReq =>
      have hc := on_message_heartbeat_ok agg pick b ii rr c h
      subst hc
      exact ihb hF
    | startTrainingReq =>
      have hc := on_message_start_ok agg pick b ii rr c h
      subst hc
      exact ihb hF
    | endTrainingReq u =>
      obtain ⟨hreg, hh⟩ := on_message_end_ok agg pick b ii u rr c h
      obtain ⟨hmem, -, hcases⟩ :=
        handle_end_training_cases agg pick b ii u rr c hh
      rcases hcases with ⟨hnf, rfl⟩ | ⟨hfin, hlast, rfl⟩ | ⟨hfin, hne, hs, hcr, hnr⟩
      · obtain ⟨ih1, ih2⟩ := ihb hF
        refine ⟨ih1, ?_⟩
        simp only [List.length_append, List.length_cons, List.length_nil]
        omega
      · refine ⟨hlast, ?_⟩
        simp only [List.length_append, List.length_cons, List.length_nil]
        omega
      · rw [hs] at hF
        obtain ⟨-, ih2⟩ := ihb hF
        omega
  | remove ii =>
    obtain ⟨hs, hrd, hcr, hnr⟩ := remove_participant_fields b ii
    rcases hs with hs | hs
    · rw [hs] at hF
      exact absurd hF (by simp)
    · rw [hs] at hF
      obtain ⟨ih1, ih2⟩ := ihb hF
      rw [hcr, hnr, hrd]
      exact ⟨ih1, ih2⟩

/-- FINISHED invariant over all reachable states (claim I2's provable
half): `state = FINISHED` forces `current_round = num_rounds`, and the
round can never again look unfinished-then-finished, because its updates
map already has at least as many entries as there are selected ids. -/
theorem finished_inv (agg : List U → T) (nr m : ℕ) (f : ℚ) (θ : T)
    (e eb : ℕ) (c : Coord T U)
    (hr : Reachable agg (Coord.init nr m f θ e eb) c) :
    c.state = .FINISHED →
      c.current_round = c.num_rounds ∧
      c.round.participant_ids.length ≤ c.round.updates.length := by
  induction hr with
  | refl =>
    intro hF
    simp [Coord.init] at hF
  | tail _ hstep ih =>
    exact step_preserves_finished_inv agg _ _ hstep ih

/-! ## Claim C1 -/

/-- C1 amended: from a FINISHED state, heartbeat, start_training and
end_training can never change the state; rendezvous keeps FINISHED as long
as the registry is at or above `minimum_connected_participants` (it answers
LATER without mutating anything); but `remove_participant` consults only
the registry size, never the state — it moves ANY state (FINISHED
included) to STANDBY exactly when the remaining size is below the
threshold, not only when `state = ROUND`. -/
theorem claim_C1_amended (agg : List U → T) (pick : Pick) (c : Coord T U)
    (hF : c.state = .FINISHED) :
    (∀ i r c', Coord.on_message agg pick c .heartbeatReq i = .ok (r, c') →
       c'.state = .FINISHED) ∧
    (∀ i r c', Coord.on_message agg pick c .startTrainingReq i = .ok (r, c') →
       c'.state = .FINISHED) ∧
    (∀ i u r c', Coord.on_message agg pick c (.endTrainingReq u) i = .ok (r, c') →
       c'.state = .FINISHED) ∧
    (∀ i, c.min_connected ≤ (c.participants.length : ℤ) →
       Coord.on_message agg pick c .rendezvousReq i =
         .ok (.rendezvous .LATER, c)) ∧
    (∀ i, (Coord.remove_participant c i).state =
       if ((c.participants.erase i).length : ℤ) < c.min_connected
       then .STANDBY else .FINISHED) := by
  refine ⟨?_, ?_, ?_, ?_, ?_⟩
  · intro i r c' h
    rw [on_message_heartbeat_ok agg pick c i r c' h]
    exact hF
  · intro i r c' h
    rw [on_message_start_ok agg pick c i r c' h]
    exact hF
  · intro i u r c' h
    obtain ⟨hreg, hh⟩ := on_message_end_ok agg pick c i u r c' h
    obtain ⟨hmem, -, hcases⟩ := handle_end_training_cases agg pick c i u r c' hh
    rcases hcases with ⟨hnf, rfl⟩ | ⟨hfin, hlast, rfl⟩ | ⟨hfin, hne, hs, hcr, hnr⟩
    · exact hF
    · rfl
    · rw [hs]
      exact hF
  · intro i hge
    simp only [Coord.on_message]
    unfold Coord.handle_rendezvous
    rw [if_neg (not_lt.mpr hge)]
  · intro i
    unfold Coord.remove_participant
    by_cases hc : ((c.participants.erase i).length : ℤ) < c.min_connected
    · rw [if_pos hc, if_pos hc]
    · rw [if_neg hc, if_neg hc]
      exact hF

/-- C1 counterexample: `cB2` is a reachable FINISHED state; evicting `p1`
drops the registry below the threshold and the coordinator leaves FINISHED
for STANDBY — `remove_participant` does not restrict the fallback to
`state = ROUND`. -/
theorem claim_C1_counterexample :
    Reachable aggL cB0 cB2 ∧ cB2.state = .FINISHED ∧
    (Coord.remove_participant cB2 "p1").state = .STANDBY := by
  refine ⟨reach_B2, rfl, ?_⟩
  norm_num [Coord.remove_participant, Coord.min_connected,
    Coord.get_minimum_connected_participants, cB2]

/-- C1 witness: the amended statement applied at the reachable FINISHED
state `cB2`. -/
theorem claim_C1_witness :
    cB2.state = .FINISHED ∧
    ((∀ i r c', Coord.on_message aggL takeFirst cB2 .heartbeatReq i = .ok (r, c') →
        c'.state = .FINISHED) ∧
     (∀ i r c', Coord.on_message aggL takeFirst cB2 .startTrainingReq i = .ok (r, c') →
        c'.state = .FINISHED) ∧
     (∀ i u r c', Coord.on_message aggL takeFirst cB2 (.endTrainingReq u) i = .ok (r, c') →
        c'.state = .FINISHED) ∧
     (∀ i, cB2.min_connected ≤ (cB2.participants.length : ℤ) →
        Coord.on_message aggL takeFirst cB2 .rendezvousReq i =
          .ok (.rendezvous .LATER, cB2)) ∧
     (∀ i, (Coord.remove_participant cB2 i).state =
        if ((cB2.participants.erase i).length : ℤ) < cB2.min_connected
        then .STANDBY else .FINISHED)) :=
  ⟨rfl, claim_C1_amended aggL takeFirst cB2 rfl⟩

/-! ## Claim C4 -/

/-- C4 amended: in every reachable FINISHED state `current_round` equals
`num_rounds`, and an `end_training` whose caller already submitted is
rejected with `DuplicatedUpdateError`; but a registered caller that is not
yet a key of the (finished) round's `updates` map is still accepted: its
update is inserted into `round.updates` and an acknowledgment returned —
only `theta`, `current_round` and `state` stay unchanged. -/
theorem claim_C4_amended (agg : List U → T) (nr m : ℕ) (f : ℚ) (θ : T)
    (e eb : ℕ) (c : Coord T U)
    (hr : Reachable agg (Coord.init nr m f θ e eb) c)
    (hF : c.state = .FINISHED) :
    c.current_round = c.num_rounds ∧
    (∀ (pick : Pick) i u, i ∈ c.participants → i ∈ c.round.keys →
       Coord.on_message agg pick c (.endTrainingReq u) i =
         .error .DuplicatedUpdate) ∧
    (∀ (pick : Pick) i u, i ∈ c.participants → i ∉ c.round.keys →
       Coord.on_message agg pick c (.endTrainingReq u) i =
         .ok (.endTraining,
           { c with round := ⟨c.round.participant_ids,
               c.round.updates ++ [(i, u)]⟩ })) := by
  obtain ⟨hcr, hlen⟩ := finished_inv agg nr m f θ e eb c hr hF
  refine ⟨hcr, ?_, ?_⟩
  · intro pick i u hreg hdup
    have hadd : c.round.add_updates i u = .error .DuplicatedUpdate := by
      unfold Round.add_updates
      rw [if_pos hdup]
    simp only [Coord.on_message, if_pos hreg]
    unfold Coord.handle_end_training
    simp only [hadd]
  · intro pick i u hreg hnew
    exact end_training_fresh agg pick c i u hreg hnew (by omega)

/-- C4 counterexample: `cA3` is reachable and FINISHED, yet the registered
(unselected) participant `p1` successfully submits an update: the call is
acknowledged and `round.updates` changes. -/
theorem claim_C4_counterexample :
    Reachable aggL cA0 cA3 ∧ cA3.state = .FINISHED ∧
    Coord.on_message aggL takeFirst cA3 (.endTrainingReq 9) "p1" =
      .ok (.endTraining, cA4) ∧
    cA4.round.updates ≠ cA3.round.updates :=
  ⟨reach_A3, rfl, step_A3_A4, by simp [cA3, cA4]⟩

/-- C4 witness: the amended statement applied at the reachable FINISHED
state `cA3`. -/
theorem claim_C4_witness :
    (Reachable aggL (Coord.init 1 1 (1/2) [] 0 0) cA3 ∧
      cA3.state = .FINISHED) ∧
    (cA3.current_round = cA3.num_rounds ∧
     (∀ (pick : Pick) i u, i ∈ cA3.participants → i ∈ cA3.round.keys →
        Coord.on_message aggL pick cA3 (.endTrainingReq u) i =
          .error .DuplicatedUpdate) ∧
     (∀ (pick : Pick) i u, i ∈ cA3.participants → i ∉ cA3.round.keys →
        Coord.on_message aggL pick cA3 (.endTrainingReq u) i =
          .ok (.endTraining,
            { cA3 with round := ⟨cA3.round.participant_ids,
                cA3.round.updates ++ [(i, u)]⟩ }))) :=
  ⟨⟨reach_A3, rfl⟩, claim_C4_amended aggL 1 1 (1/2) [] 0 0 cA3 reach_A3 rfl⟩
